import Mathlib

/-!
Verification development for the LazyLibrarian library-sync core
(`lazylibrarian/librarysync.py`): the metadata extraction and
fuzzy-reconciliation pipeline.  Python functions are shallowly embedded as
executable Lean definitions; the database is modelled as a list of rows,
the filesystem as explicit lookup functions, and the external similarity
metrics (fuzzywuzzy) and text helpers (formatter.py, outside this tree) as
opaque function parameters.
-/

/-! ## String helpers shared by several embeddings -/

/-- Recursion worker for `pyReplace`; the fuel argument (instantiated with
the string length, which bounds the number of steps) keeps the recursion
structural so that terms evaluate by kernel reduction. -/
def pyReplaceAux : Nat → List Char → List Char → List Char → List Char
  | 0, s, _, _ => s
  | fuel + 1, s, pat, rep =>
    match s with
    | [] => []
    | c :: rest =>
      if pat.isPrefixOf s then rep ++ pyReplaceAux fuel (s.drop pat.length) pat rep
      else c :: pyReplaceAux fuel rest pat rep

/-- Python `str.replace(pat, rep)`: replace every non-overlapping occurrence
of `pat` in `s`, scanning left to right.  Degenerate empty patterns are
returned unchanged (the source never uses an empty pattern). -/
def pyReplace (s pat rep : List Char) : List Char :=
  if pat.isEmpty then s else pyReplaceAux s.length s pat rep

/-- Python `s.replace('"', '""')` as applied to the SQL query parameters in
`find_book_in_db` (the doubled quote is bound literally by the
parametrised query, not unescaped). -/
def sqlQuote (s : String) : String :=
  ⟨pyReplace s.data ['"'] ['"', '"']⟩

/-- ASCII lowercasing of one character (Python `str.lower` / sqlite case
folding restricted to ASCII, which is all sqlite's NOCASE folds). -/
def pyLowerChar (c : Char) : Char :=
  if 'A' ≤ c ∧ c ≤ 'Z' then Char.ofNat (c.toNat + 32) else c

/-- ASCII lowercasing of a string. -/
def pyLower (s : String) : String :=
  ⟨s.data.map pyLowerChar⟩

/-- sqlite `COLLATE NOCASE` equality (ASCII case folding). -/
def nocaseEq (a b : String) : Bool :=
  pyLower a == pyLower b

/-! ## Fuzzy catalog matcher (`find_book_in_db`, librarysync.py 164-279) -/

/-- One row of the `books NATURAL JOIN authors` view used by
`find_book_in_db`. -/
structure DBBook where
  bookID : Nat
  bookName : String
  authorName : String
deriving DecidableEq, Repr

/-- The helpers `find_book_in_db` uses that live outside `librarysync.py`:
the two fuzzywuzzy similarity metrics, and `unaccented`, `getList` (word
list) and `split_title` from `formatter.py`.  They are kept opaque: the
matcher's claims hold for every choice. -/
structure FuzzOps where
  token_sort_ratio : String → String → Int
  partial_ratio : String → String → Int
  unaccented : String → String
  wordCount : String → Nat
  split_title : String → String → String
deriving Inhabited

/-- Accumulator of the fuzzy loop of `find_book_in_db`: the three
per-metric running maxima with their book ids, plus the `partname`
variable which Python carries across iterations. -/
structure FuzzAcc where
  best_ratio : Int := 0
  best_prat : Int := 0
  best_pname : Int := 0
  ratio_id : Nat := 0
  prat_id : Nat := 0
  pname_id : Nat := 0
  pname_last : Int := 0
deriving DecidableEq, Repr

/-- One iteration of the `for a_book in books` loop (librarysync.py
204-242): compute the token-sort ratio, the partial ratio and (when the
reduced core title is non-empty) the partial ratio against the core
title, subtract the absolute word-count difference from each, and update
the three running maxima. -/
def fuzzStep (ops : FuzzOps) (book_lower book_partname : String)
    (st : FuzzAcc) (a_book : DBBook) : FuzzAcc :=
  let a_book_lower := ops.unaccented (pyLower a_book.bookName)
  let ratio := ops.token_sort_ratio book_lower a_book_lower
  let prat := ops.partial_ratio book_lower a_book_lower
  let pname :=
    if book_partname == "" then st.pname_last
    else ops.partial_ratio book_partname a_book_lower
  let words : Int := (ops.wordCount book_lower : Int) - ops.wordCount a_book_lower
  let ratio := ratio - |words|
  let prat := prat - |words|
  let pname := pname - |words|
  let st := if ratio > st.best_ratio then
      { st with best_ratio := ratio, ratio_id := a_book.bookID } else st
  let st := if prat > st.best_prat then
      { st with best_prat := prat, prat_id := a_book.bookID } else st
  let st := if pname > st.best_pname then
      { st with best_pname := pname, pname_id := a_book.bookID } else st
  { st with pname_last := pname }

/-- The approximate-match step of `find_book_in_db` (librarysync.py
185-279): fold the fuzzy loop over the candidate list and pick a winner by
the fixed threshold cascade ratio>90, partial>85, partname>95, else 0. -/
def fuzzy_find (ops : FuzzOps) (books : List DBBook) (author book : String) : Nat :=
  let book_lower := ops.unaccented (pyLower book)
  let bp := ops.split_title author book_lower
  let book_partname := if bp == book_lower then "" else bp
  let st := books.foldl (fuzzStep ops book_lower book_partname) {}
  if st.best_ratio > 90 then st.ratio_id
  else if st.best_prat > 85 then st.prat_id
  else if st.best_pname > 95 then st.pname_id
  else 0

/-- The function `find_book_in_db(author, book)` (librarysync.py 164-279).  The exact
match is the first catalog row whose author and book name equal the
quote-doubled query parameters `COLLATE NOCASE`; on miss, the fuzzy step
runs over the rows by the same (quote-doubled, case-insensitive)
author. -/
def find_book_in_db (ops : FuzzOps) (catalog : List DBBook)
    (author book : String) : Nat :=
  let qa := sqlQuote author
  let qb := sqlQuote book
  match catalog.find? (fun r => nocaseEq r.authorName qa && nocaseEq r.bookName qb) with
  | some r => r.bookID
  | none =>
    let books := catalog.filter (fun r => nocaseEq r.authorName qa)
    fuzzy_find ops books author book

/-- Trivial instantiation of the opaque helpers, used to evaluate the
matcher on concrete inputs. -/
def trivOps : FuzzOps :=
  { token_sort_ratio := fun _ _ => 0
    partial_ratio := fun _ _ => 0
    unaccented := id
    wordCount := fun _ => 0
    split_title := fun _ b => b }

/-! ## Declarative description of the approximate-match step (spec 4.4) -/

/-- Spec-side: adjusted `ratio` score of one candidate — token-sort
similarity penalised by the absolute word-count difference. -/
def adjRatio (ops : FuzzOps) (book_lower : String) (b : DBBook) : Int :=
  let abl := ops.unaccented (pyLower b.bookName)
  ops.token_sort_ratio book_lower abl
    - |(ops.wordCount book_lower : Int) - ops.wordCount abl|

/-- Spec-side: adjusted `partial` score of one candidate. -/
def adjPrat (ops : FuzzOps) (book_lower : String) (b : DBBook) : Int :=
  let abl := ops.unaccented (pyLower b.bookName)
  ops.partial_ratio book_lower abl
    - |(ops.wordCount book_lower : Int) - ops.wordCount abl|

/-- Spec-side: adjusted `partname` score of one candidate — partial
similarity against the reduced core title, with the same penalty
(computed from the full titles). -/
def adjPname (ops : FuzzOps) (core book_lower : String) (b : DBBook) : Int :=
  let abl := ops.unaccented (pyLower b.bookName)
  ops.partial_ratio core abl
    - |(ops.wordCount book_lower : Int) - ops.wordCount abl|

/-- Running maximum of a score over a candidate list, seeded with `b`. -/
def runBest (f : DBBook → Int) (l : List DBBook) (b : Int) : Int :=
  l.foldl (fun m x => max m (f x)) b

/-- Best score over a candidate list (the running maxima start at 0). -/
def bestScore (f : DBBook → Int) (l : List DBBook) : Int :=
  runBest f l 0

/-- Id of the first candidate attaining score `M` (ties keep the first
encountered, sqlite iteration order). -/
def firstMaxId (f : DBBook → Int) (l : List DBBook) (M : Int) : Nat :=
  match l.find? (fun x => f x == M) with
  | some x => x.bookID
  | none => 0

/-- Spec-side winner of one metric: the first candidate attaining the best
score, provided some candidate beat the initial 0. -/
def specBestId (f : DBBook → Int) (l : List DBBook) : Nat :=
  if bestScore f l > 0 then firstMaxId f l (bestScore f l) else 0

/-- Declarative form of the approximate-match step, written from the
spec's words (claim C1): per-candidate adjusted scores, three independent
per-metric maxima, the `partname` metric only when the reduced core title
differs from the full title, and the fixed threshold cascade
ratio>90, partial>85, partname>95, else 0 (NotFound). -/
def fuzzySpecC1 (ops : FuzzOps) (cands : List DBBook) (author book : String) : Nat :=
  let bl := ops.unaccented (pyLower book)
  let core := ops.split_title author bl
  if bestScore (adjRatio ops bl) cands > 90 then specBestId (adjRatio ops bl) cands
  else if bestScore (adjPrat ops bl) cands > 85 then specBestId (adjPrat ops bl) cands
  else if core ≠ bl ∧ bestScore (adjPname ops core bl) cands > 95 then
    specBestId (adjPname ops core bl) cands
  else 0

/-- One running-maximum update with strict comparison, keeping the score
and the id of the current best candidate. -/
def pairStep (f : DBBook → Int) (acc : Int × Nat) (x : DBBook) : Int × Nat :=
  if f x > acc.1 then (f x, x.bookID) else acc

/-- Concrete instantiation of the opaque text helpers used by the C1
witness. -/
def opsC1 : FuzzOps :=
  { token_sort_ratio := fun _ _ => 95
    partial_ratio := fun _ _ => 80
    unaccented := id
    wordCount := fun _ => 0
    split_title := fun _ b => b ++ "x" }

/-! ## Language cache (librarysync.py 546-560) -/

/-- The `isbnhead` value, the 3-character language-cache key (librarysync.py
551-554): characters 0-2 of a 10-digit ISBN, 3-5 of a 13-digit one. -/
def isbnHead (isbn : String) : String :=
  if isbn.data.length == 10 then ⟨isbn.data.take 3⟩
  else ⟨(isbn.data.drop 3).take 3⟩

/-- The cache-write step of `LibraryScan` (librarysync.py 555-560): query
the `languages` table for the prefix and insert only when no row exists
(first writer wins; an existing row is never overwritten). -/
def langCacheAdd (cache : List (String × String)) (isbnhead lang : String) :
    List (String × String) :=
  match cache.lookup isbnhead with
  | some _ => cache
  | none => cache ++ [(isbnhead, lang)]

/-! ## Author status across a partial scan (librarysync.py 296-911) -/

/-- One row of the `authors` table as touched by `LibraryScan`. -/
structure AuthorRow where
  authorID : Nat
  status : String
  totals : Nat
deriving DecidableEq, Repr

/-- The query `SELECT authorid from authors where authorid=?` (first matching row). -/
def lookupAuthor (db : List AuthorRow) (aid : Nat) : Option AuthorRow :=
  db.find? (fun r => r.authorID == aid)

/-- The guarded status write `LibraryScan` performs (librarysync.py
326-331, 882-887, 904-910): check the author row exists, then upsert
`Status` keyed on `AuthorID`. -/
def setStatusIfExists (db : List AuthorRow) (aid : Nat) (s : String) : List AuthorRow :=
  match lookupAuthor db aid with
  | some _ => db.map (fun r => if r.authorID == aid then { r with status := s } else r)
  | none => db

/-- Modelled from the spec: the `update_totals` pass at scan end
(importer.py, outside this tree) only refreshes per-author book counts;
it is modelled as an arbitrary rewrite of the `totals` field that touches
neither ids nor statuses. -/
def updateTotals (f : Nat → Nat) (db : List AuthorRow) : List AuthorRow :=
  db.map (fun r => { r with totals := f r.totals })

/-- A single-author (partial) `LibraryScan` run seen through its effect on
author rows: the status is set to Loading on entry (librarysync.py
326-331); `body` stands for the whole scan body and either returns the
final rows (`Except.ok`) or the rows at the point an exception was raised
(`Except.error`); on either exit the status is set back to Active
(librarysync.py 882-887 normally, 904-910 in the `except` handler),
followed on the normal path by the totals refresh. -/
def libraryScanAuthorFlow
    (body : List AuthorRow → Except (List AuthorRow) (List AuthorRow))
    (f : Nat → Nat) (aid : Nat) (db : List AuthorRow) : List AuthorRow :=
  let db1 := setStatusIfExists db aid "Loading"
  match body db1 with
  | Except.ok db2 => updateTotals f (setStatusIfExists db2 aid "Active")
  | Except.error db2 => setStatusIfExists db2 aid "Active"

/-- Every row carrying the given id has the given status. -/
def aidStatus (db : List AuthorRow) (aid : Nat) (s : String) : Prop :=
  ∀ r ∈ db, r.authorID = aid → r.status = s

/-! ## Removal detection pass (librarysync.py 341-375) -/

/-- sqlite `LIKE "pat%"` on a path: case-insensitive (ASCII) prefix. -/
def likeStartsWith (pat s : String) : Bool :=
  (pyLower pat).data.isPrefixOf (pyLower s).data

/-- One `books` row as read by the removal pass (eBook modality). -/
structure BookFileRow where
  bookID : Nat
  status : String
  bookFile : String
  bookLibrary : Option String
deriving DecidableEq, Repr

/-- The eBook removal-detection pass (librarysync.py 342-358), run before
the walk whenever `remove` is set: select the rows with a BookLibrary
timestamp — restricted, when the scan is partial (start directory
differs from the library root, `fullScan = false`), to rows whose
BookFile is under the scanned subtree (`BookFile like "startdir%"`) —
and for every selected row whose recorded file no longer exists on disk
(`onDisk` models `os.path.isfile`) set the configured not-found status
and clear BookFile and BookLibrary (the SQL writes empty strings).  The
Audio branch (360-375) is symmetric with the Audio columns. -/
def removalPassEBook (onDisk : String → Bool) (remove fullScan : Bool)
    (startdir notfound : String) (books : List BookFileRow) : List BookFileRow :=
  if remove then
    books.map (fun b =>
      if (b.bookLibrary.isSome && (fullScan || likeStartsWith startdir b.bookFile))
          && (!(b.bookFile == "") && !(onDisk b.bookFile)) then
        { b with status := notfound, bookFile := "", bookLibrary := some "" }
      else b)
  else books

/-! ## Metadata cascade step 1 (librarysync.py 449-459) and the
`get_book_info` extension dispatch (43-47, 86, 118, 124) -/

/-- Index of the last `'.'` in a character list, if any. -/
def lastDotIdx (cs : List Char) : Option Nat :=
  match cs.reverse.findIdx? (· == '.') with
  | none => none
  | some j => some (cs.length - 1 - j)

/-- Python `os.path.splitext` on a bare filename: split at the last dot, unless
every character before it is a dot (leading dots of the basename never
start an extension). -/
def splitext (s : String) : String × String :=
  let cs := s.data
  match lastDotIdx cs with
  | none => (s, "")
  | some i =>
    if 0 < i ∧ ¬ ((cs.take i).all (· == '.')) = true then
      (⟨cs.take i⟩, ⟨cs.drop i⟩)
    else (s, "")

/-- The branches of `get_book_info` (librarysync.py 39-161). -/
inductive BookInfoBranch
  | mobi
  | epub
  | opf
  | unhandled
deriving DecidableEq, Repr

/-- The extension dispatch at the top of `get_book_info` (librarysync.py
43-47, 86, 118, 124): `.mobi` and `.azw3` share the Mobi container
parser; anything else is unhandled (logged and skipped). -/
def getBookInfoBranch (extn : String) : BookInfoBranch :=
  if extn == ".mobi" || extn == ".azw3" then BookInfoBranch.mobi
  else if extn == ".epub" then BookInfoBranch.epub
  else if extn == ".opf" then BookInfoBranch.opf
  else BookInfoBranch.unhandled

/-- Step 1 of the per-file metadata cascade (librarysync.py 449-459): the
embedded container metadata is read — `get_book_info` invoked — only when
the file extension is `.epub` or `.mobi`; `reader` stands for
`get_book_info` on the joined path and `none` means the step was
skipped. -/
def resolverStep1 (reader : String → List (String × String)) (files : String) :
    Option (List (String × String)) :=
  let extn := (splitext files).2
  if extn == ".epub" || extn == ".mobi" then some (reader files) else none

/-! ## Filename pattern matcher (librarysync.py 380-401, 521-540) -/

/-- Tokens of the compiled naming-template pattern: an escaped literal,
one of the two named lazy capture groups, or a character class. -/
inductive Tok
  | lit (c : Char)
  | grpAuthor
  | grpBook
  | cls (cs : List Char)
deriving DecidableEq, Repr

/-- The escaping loop (librarysync.py 381-383): every template character
is preceded by a backslash. -/
def escapeAll (t : List Char) : List Char :=
  (t.map (fun c => ['\\', c])).flatten

/-- The booktype alternation text (librarysync.py 386-397): the
configured extensions joined with `|`. -/
def joinTypes : List String → List Char
  | [] => []
  | t :: ts => ts.foldl (fun acc bt => acc ++ '|' :: bt.data) t.data

/-- The pattern string compiled from the destination-file template
(librarysync.py 381-401): escape the whole template, substitute the
escaped `$Author` and `$Title` sequences by the named lazy groups, and
append `\.[` ++ booktypes ++ `]` — note the square brackets: a character
class, not a group. -/
def buildMatchString (template : String) (booktype_list : List String) : List Char :=
  let m := escapeAll template.data
  let m := pyReplace m (escapeAll "$Author".data) "(?P<author>.*?)".data
  let m := pyReplace m (escapeAll "$Title".data) "(?P<book>.*?)".data
  m ++ ('\\' :: '.' :: '[' :: joinTypes booktype_list) ++ [']']

/-- Character-class contents: everything up to the first `]`. -/
def parseClass : List Char → Option (List Char × List Char)
  | [] => none
  | c :: rest =>
    if c == ']' then some ([], rest)
    else
      match parseClass rest with
      | some (cs, r) => some (c :: cs, r)
      | none => none

/-- Recursion worker for `parseToks` (fuel keeps it structural). -/
def parseToksF : Nat → List Char → Option (List Tok)
  | _, [] => some []
  | 0, _ :: _ => none
  | fuel + 1, cs =>
    match cs with
    | '\\' :: c :: rest => (parseToksF fuel rest).map (fun ts => Tok.lit c :: ts)
    | '(' :: '?' :: 'P' :: '<' :: 'a' :: 'u' :: 't' :: 'h' :: 'o' :: 'r' :: '>'
        :: '.' :: '*' :: '?' :: ')' :: rest =>
      (parseToksF fuel rest).map (fun ts => Tok.grpAuthor :: ts)
    | '(' :: '?' :: 'P' :: '<' :: 'b' :: 'o' :: 'o' :: 'k' :: '>'
        :: '.' :: '*' :: '?' :: ')' :: rest =>
      (parseToksF fuel rest).map (fun ts => Tok.grpBook :: ts)
    | '[' :: rest =>
      match parseClass rest with
      | some (cs2, rest2) => (parseToksF fuel rest2).map (fun ts => Tok.cls cs2 :: ts)
      | none => none
    | _ => none

/-- Parse a generated pattern string into tokens (the grammar `re.compile`
sees on the strings `buildMatchString` emits: escaped literals, the two
named lazy groups, one character class). -/
def parseToks (cs : List Char) : Option (List Tok) :=
  parseToksF cs.length cs

/-- Captures of the two named groups (`none` = group did not take part
in the match, Python `match.group` returning `None`). -/
structure Caps where
  author : Option (List Char) := none
  book : Option (List Char) := none
deriving DecidableEq, Repr

def setAuthor (v : List Char) (caps : Caps) : Caps := { caps with author := some v }

def setBook (v : List Char) (caps : Caps) : Caps := { caps with book := some v }

/-- Python `re.match` on the generated patterns: anchored at the start,
matching a prefix (there is no end anchor), with lazy groups — the
shortest capture whose continuation matches wins (`List.range` is
searched in increasing order). -/
def tokMatch : List Tok → List Char → Option Caps
  | [], _ => some {}
  | Tok.lit _ :: _, [] => none
  | Tok.lit c :: ts, x :: xs => if x == c then tokMatch ts xs else none
  | Tok.cls _ :: _, [] => none
  | Tok.cls cs :: ts, x :: xs => if cs.contains x then tokMatch ts xs else none
  | Tok.grpAuthor :: ts, s =>
    (List.range (s.length + 1)).findSome?
      (fun n => (tokMatch ts (s.drop n)).map (setAuthor (s.take n)))
  | Tok.grpBook :: ts, s =>
    (List.range (s.length + 1)).findSome?
      (fun n => (tokMatch ts (s.drop n)).map (setBook (s.take n)))

/-- The filename pattern-match step of the scan (librarysync.py 521-540):
run the compiled pattern on the bare filename; on a regex match reject
the result if either capture is empty (`if not author or not book`), and
then if either capture has length ≤ 2; otherwise yield the pair. -/
def patternMatchStep (toks : List Tok) (files : List Char) :
    Option (List Char × List Char) :=
  match tokMatch toks files with
  | none => none
  | some caps =>
    match caps.author, caps.book with
    | some a, some b =>
      if a.isEmpty || b.isEmpty then none
      else if b.length ≤ 2 ∨ a.length ≤ 2 then none
      else some (a, b)
    | _, _ => none

/-- The token list compiled from the stock template `$Author - $Title`
with the single extension `epub`. -/
def toksC7 : List Tok :=
  (parseToks (buildMatchString "$Author - $Title" ["epub"])).getD []

/-- The token list compiled from the stock template with extensions
epub and mobi. -/
def toksC8 : List Tok :=
  (parseToks (buildMatchString "$Author - $Title" ["epub", "mobi"])).getD []

/-! ## epub container reader (librarysync.py 86-161) -/

/-- An XML element as ElementTree presents it: tag, attribute dictionary,
text, children. -/
inductive Xml where
  | elem (tag : String) (attrs : List (String × String))
      (text : Option String) (children : List Xml)

def Xml.tag : Xml → String
  | .elem t _ _ _ => t

def Xml.attrs : Xml → List (String × String)
  | .elem _ a _ _ => a

def Xml.text : Xml → Option String
  | .elem _ _ tx _ => tx

def Xml.children : Xml → List Xml
  | .elem _ _ _ c => c

/-- Zip member access `zipdata.read(name)`: the member's contents, or a KeyError carrying
the name when no such member exists. -/
def zipRead (entries : List (String × String)) (name : String) : Except String String :=
  match entries.lookup name with
  | some txt => Except.ok txt
  | none => Except.error name

/-- The `while` loop at librarysync.py 108-113: the `full-path` attribute
of the first child of `tree[0]` carrying one, `""` when none does. -/
def findFullPath : List Xml → String
  | [] => ""
  | c :: rest =>
    match c.attrs.lookup "full-path" with
    | some v => v
    | none => findFullPath rest

/-- Substring test on character lists (Python `in` on strings). -/
def occursIn (needle : List Char) : List Char → Bool
  | [] => needle.isEmpty
  | c :: rest => needle.isPrefixOf (c :: rest) || occursIn needle rest

/-- Python `tag.split('}')[1]`: the segment between the first and the second
closing brace of a namespaced tag. -/
def afterBrace (cs : List Char) : List Char :=
  ((cs.dropWhile (fun c => !(c == '}'))).drop 1).takeWhile (fun c => !(c == '}'))

/-- Python `needle in str(node.attrib).lower()`: an alphanumeric needle occurs
in the repr of the attribute dictionary exactly when it occurs in some
key or value (it cannot span the quoting punctuation). -/
def attribContains (attrs : List (String × String)) (needle : List Char) : Bool :=
  attrs.any (fun kv =>
    occursIn needle (pyLower kv.1).data || occursIn needle (pyLower kv.2).data)

/-- The `res` dictionary built by `get_book_info`.  The inner `Option`
on the metadata fields records that ElementTree text may be `None` and
the code stores it unchecked. -/
structure BookRes where
  type? : Option String := none
  title? : Option (Option String) := none
  creator? : Option (Option String) := none
  language? : Option (Option String) := none
  identifier? : Option (Option String) := none
  gr_id? : Option (Option String) := none
deriving DecidableEq, Repr

/-- One iteration of the metadata repackaging loop (librarysync.py
138-160): only namespaced tags (containing `}`) are inspected; the tag
suffix selects the field, the first creator wins, identifiers need an
isbn- or goodreads-flavoured attribute (and ISBN validation, modelled by
`validIsbn` since `is_valid_isbn` lives in formatter.py outside this
tree). -/
def repackStep (validIsbn : Option String → Bool) (res : BookRes) (node : Xml) : BookRes :=
  let tag := pyLower node.tag
  if tag.data.contains '}' then
    let tag2 := afterBrace tag.data
    let txt := node.text
    if occursIn "title".data tag2 then { res with title? := some txt }
    else if occursIn "language".data tag2 then { res with language? := some txt }
    else if occursIn "creator".data tag2 && !res.creator?.isSome then
      { res with creator? := some txt }
    else if occursIn "identifier".data tag2 && attribContains node.attrs "isbn".data then
      if validIsbn txt then { res with identifier? := some txt } else res
    else if occursIn "identifier".data tag2 && attribContains node.attrs "goodreads".data then
      { res with gr_id? := some txt }
    else res
  else res

/-- The epub branch of `get_book_info` (librarysync.py 86-161) on an
already-opened zip archive: read `META-INF/container.xml` (an uncaught
KeyError if absent), parse it (`parseXml` models
`ElementTree.fromstring`, `none` standing for the caught parse error),
bail out with the bare `res` if the tree has no children, locate the
OPF name via the `full-path` attribute, read it from the archive — an
uncaught KeyError when the name is missing, in particular when it is
`""` because no `full-path` attribute existed — and finally parse and
repackage the metadata block. -/
def getBookInfoEpub (parseXml : String → Option Xml) (validIsbn : Option String → Bool)
    (entries : List (String × String)) : Except String BookRes :=
  let res : BookRes := { type? := some "epub" }
  match zipRead entries "META-INF/container.xml" with
  | Except.error e => Except.error e
  | Except.ok txt =>
    match parseXml txt with
    | none => Except.ok res
    | some tree =>
      match tree.children with
      | [] => Except.ok res
      | t0 :: _ =>
        match zipRead entries (findFullPath t0.children) with
        | Except.error e => Except.error e
        | Except.ok txt2 =>
          match parseXml txt2 with
          | none => Except.ok res
          | some tree2 =>
            match tree2.children with
            | [] => Except.ok res
            | m0 :: _ => Except.ok (m0.children.foldl (repackStep validIsbn) res)

/-- The scan-level wrapper around `get_book_info` (librarysync.py
453-459): any exception is caught, logged and the file treated as
having no embedded metadata (`res = {}`). -/
def scanEpubMeta (parseXml : String → Option Xml) (validIsbn : Option String → Bool)
    (entries : List (String × String)) : BookRes :=
  match getBookInfoEpub parseXml validIsbn entries with
  | Except.ok res => res
  | Except.error _ => {}

/-- The container.xml of an epub whose rootfile element carries no
`full-path` attribute. -/
def xmlC9 : Xml :=
  Xml.elem "container" [] none
    [Xml.elem "rootfiles" [] none
      [Xml.elem "rootfile" [("media-type", "application/oebps-package+xml")] none []]]

/-! ## Per-file subdirectory dedup (librarysync.py 420-429) -/

/-- The already-scanned-subdirectory skip decision (librarysync.py
425-429): for an eBook scan the skip needs the `IMP_SINGLEBOOK` switch;
for an Audio scan it is unconditional. -/
def skipSubdir (library : String) (singlebook : Bool)
    (processed : List String) (subdirectory : String) : Bool :=
  if library == "eBook" && singlebook && processed.contains subdirectory then true
  else if library == "Audio" && processed.contains subdirectory then true
  else false

/-! ## Theorems -/

theorem runBest_cons (f : DBBook → Int) (x : DBBook) (xs : List DBBook) (b : Int) :
    runBest f (x :: xs) b = runBest f xs (max b (f x)) := rfl

theorem le_runBest (f : DBBook → Int) (l : List DBBook) (b : Int) :
    b ≤ runBest f l b := by
  induction l generalizing b with
  | nil => exact le_refl b
  | cons x xs ih =>
    calc b ≤ max b (f x) := le_max_left _ _
    _ ≤ runBest f xs (max b (f x)) := ih _

theorem pairFold_fst (f : DBBook → Int) (l : List DBBook) (b : Int) (i : Nat) :
    (l.foldl (pairStep f) (b, i)).1 = runBest f l b := by
  induction l generalizing b i with
  | nil => rfl
  | cons x xs ih =>
    simp only [List.foldl_cons, runBest_cons, pairStep]
    by_cases h : f x > b
    · simp only [if_pos h]
      rw [ih, max_eq_right (le_of_lt h)]
    · simp only [if_neg h]
      rw [ih, max_eq_left (le_of_not_lt h)]

theorem pairFold_snd (f : DBBook → Int) (l : List DBBook) (b : Int) (i : Nat) :
    (l.foldl (pairStep f) (b, i)).2 =
      if runBest f l b > b then firstMaxId f l (runBest f l b) else i := by
  induction l generalizing b i with
  | nil => simp [runBest]
  | cons x xs ih =>
    simp only [List.foldl_cons, runBest_cons, pairStep]
    by_cases h : f x > b
    · simp only [if_pos h]
      rw [max_eq_right (le_of_lt h), ih]
      have hle : f x ≤ runBest f xs (f x) := le_runBest f xs (f x)
      have hgt : runBest f xs (f x) > b := lt_of_lt_of_le h hle
      rw [if_pos hgt]
      by_cases hM : f x = runBest f xs (f x)
      · rw [if_neg (by omega)]
        simp only [firstMaxId]
        rw [List.find?_cons_of_pos _ (by simpa using hM)]
      · have hlt : f x < runBest f xs (f x) := lt_of_le_of_ne hle hM
        rw [if_pos hlt]
        simp only [firstMaxId]
        rw [List.find?_cons_of_neg _ (by simpa using hM)]
    · simp only [if_neg h]
      rw [max_eq_left (le_of_not_lt h), ih]
      by_cases hgt : runBest f xs b > b
      · rw [if_pos hgt, if_pos hgt]
        simp only [firstMaxId]
        rw [List.find?_cons_of_neg _ (by simp; omega)]
      · rw [if_neg hgt, if_neg hgt]

theorem fuzzStep_ratio (ops : FuzzOps) (bl bp : String) (st : FuzzAcc) (x : DBBook) :
    ((fuzzStep ops bl bp st x).best_ratio, (fuzzStep ops bl bp st x).ratio_id)
      = pairStep (adjRatio ops bl) (st.best_ratio, st.ratio_id) x := by
  simp only [fuzzStep, pairStep, adjRatio]
  split_ifs <;> simp_all

theorem fuzzStep_prat (ops : FuzzOps) (bl bp : String) (st : FuzzAcc) (x : DBBook) :
    ((fuzzStep ops bl bp st x).best_prat, (fuzzStep ops bl bp st x).prat_id)
      = pairStep (adjPrat ops bl) (st.best_prat, st.prat_id) x := by
  simp only [fuzzStep, pairStep, adjPrat]
  split_ifs <;> simp_all

theorem fuzzStep_pname (ops : FuzzOps) (bl bp : String) (st : FuzzAcc) (x : DBBook)
    (hbp : (bp == "") = false) :
    ((fuzzStep ops bl bp st x).best_pname, (fuzzStep ops bl bp st x).pname_id)
      = pairStep (adjPname ops bp bl) (st.best_pname, st.pname_id) x := by
  simp only [fuzzStep, pairStep, adjPname, hbp]
  split_ifs <;> simp_all

theorem fuzzFold_ratio (ops : FuzzOps) (bl bp : String) (l : List DBBook) (st : FuzzAcc) :
    ((l.foldl (fuzzStep ops bl bp) st).best_ratio,
      (l.foldl (fuzzStep ops bl bp) st).ratio_id)
      = l.foldl (pairStep (adjRatio ops bl)) (st.best_ratio, st.ratio_id) := by
  induction l generalizing st with
  | nil => rfl
  | cons x xs ih =>
    simp only [List.foldl_cons]
    rw [ih, ← fuzzStep_ratio ops bl bp st x]

theorem fuzzFold_prat (ops : FuzzOps) (bl bp : String) (l : List DBBook) (st : FuzzAcc) :
    ((l.foldl (fuzzStep ops bl bp) st).best_prat,
      (l.foldl (fuzzStep ops bl bp) st).prat_id)
      = l.foldl (pairStep (adjPrat ops bl)) (st.best_prat, st.prat_id) := by
  induction l generalizing st with
  | nil => rfl
  | cons x xs ih =>
    simp only [List.foldl_cons]
    rw [ih, ← fuzzStep_prat ops bl bp st x]

theorem fuzzFold_pname (ops : FuzzOps) (bl bp : String) (l : List DBBook) (st : FuzzAcc)
    (hbp : (bp == "") = false) :
    ((l.foldl (fuzzStep ops bl bp) st).best_pname,
      (l.foldl (fuzzStep ops bl bp) st).pname_id)
      = l.foldl (pairStep (adjPname ops bp bl)) (st.best_pname, st.pname_id) := by
  induction l generalizing st with
  | nil => rfl
  | cons x xs ih =>
    simp only [List.foldl_cons]
    rw [ih, ← fuzzStep_pname ops bl bp st x hbp]

/-- When the reduced core title is empty the `partname` metric is inert:
its running maximum and id never change, and the carried score stays
non-positive. -/
theorem fuzzFold_pname_empty (ops : FuzzOps) (bl : String) (l : List DBBook) (st : FuzzAcc)
    (hlast : st.pname_last ≤ 0) (hbest : 0 ≤ st.best_pname) :
    (l.foldl (fuzzStep ops bl "" ) st).best_pname = st.best_pname ∧
      (l.foldl (fuzzStep ops bl "") st).pname_id = st.pname_id := by
  induction l generalizing st with
  | nil => exact ⟨rfl, rfl⟩
  | cons x xs ih =>
    simp only [List.foldl_cons]
    have hempty : (("" : String) == "") = true := rfl
    have habs : 0 ≤ |(ops.wordCount bl : Int) - ops.wordCount (ops.unaccented (pyLower x.bookName))| :=
      abs_nonneg _
    have hval : (fuzzStep ops bl "" st x).pname_last = st.pname_last -
        |(ops.wordCount bl : Int) - ops.wordCount (ops.unaccented (pyLower x.bookName))| := by
      simp only [fuzzStep, hempty, if_true]
    have hpn : (fuzzStep ops bl "" st x).pname_last ≤ 0 := by
      rw [hval]; omega
    have hkeep : (fuzzStep ops bl "" st x).best_pname = st.best_pname ∧
        (fuzzStep ops bl "" st x).pname_id = st.pname_id := by
      simp only [fuzzStep, hempty, if_true]
      have hcond : ¬ (st.pname_last -
          |(ops.wordCount bl : Int) - ops.wordCount (ops.unaccented (pyLower x.bookName))| >
            st.best_pname) := by omega
      split_ifs <;> simp_all
    obtain ⟨h1, h2⟩ := ih (fuzzStep ops bl "" st x) hpn (hkeep.1 ▸ hbest)
    exact ⟨h1.trans hkeep.1, h2.trans hkeep.2⟩

theorem cascade_eq (ops : FuzzOps) (books : List DBBook) (bl bpn : String)
    (hbp : (bpn == "") = false) :
    (if (books.foldl (fuzzStep ops bl bpn) {}).best_ratio > 90 then
        (books.foldl (fuzzStep ops bl bpn) {}).ratio_id
      else if (books.foldl (fuzzStep ops bl bpn) {}).best_prat > 85 then
        (books.foldl (fuzzStep ops bl bpn) {}).prat_id
      else if (books.foldl (fuzzStep ops bl bpn) {}).best_pname > 95 then
        (books.foldl (fuzzStep ops bl bpn) {}).pname_id
      else 0)
    = (if bestScore (adjRatio ops bl) books > 90 then specBestId (adjRatio ops bl) books
      else if bestScore (adjPrat ops bl) books > 85 then specBestId (adjPrat ops bl) books
      else if bestScore (adjPname ops bpn bl) books > 95 then
        specBestId (adjPname ops bpn bl) books
      else 0) := by
  have hR := fuzzFold_ratio ops bl bpn books {}
  have hP := fuzzFold_prat ops bl bpn books {}
  have hN := fuzzFold_pname ops bl bpn books {} hbp
  have hR1 : (books.foldl (fuzzStep ops bl bpn) {}).best_ratio
      = bestScore (adjRatio ops bl) books := by
    have h1 := congrArg Prod.fst hR
    rw [pairFold_fst] at h1
    exact h1
  have hR2 : (books.foldl (fuzzStep ops bl bpn) {}).ratio_id
      = if bestScore (adjRatio ops bl) books > 0 then
          firstMaxId (adjRatio ops bl) books (bestScore (adjRatio ops bl) books) else 0 := by
    have h2 := congrArg Prod.snd hR
    rw [pairFold_snd] at h2
    exact h2
  have hP1 : (books.foldl (fuzzStep ops bl bpn) {}).best_prat
      = bestScore (adjPrat ops bl) books := by
    have h1 := congrArg Prod.fst hP
    rw [pairFold_fst] at h1
    exact h1
  have hP2 : (books.foldl (fuzzStep ops bl bpn) {}).prat_id
      = if bestScore (adjPrat ops bl) books > 0 then
          firstMaxId (adjPrat ops bl) books (bestScore (adjPrat ops bl) books) else 0 := by
    have h2 := congrArg Prod.snd hP
    rw [pairFold_snd] at h2
    exact h2
  have hN1 : (books.foldl (fuzzStep ops bl bpn) {}).best_pname
      = bestScore (adjPname ops bpn bl) books := by
    have h1 := congrArg Prod.fst hN
    rw [pairFold_fst] at h1
    exact h1
  have hN2 : (books.foldl (fuzzStep ops bl bpn) {}).pname_id
      = if bestScore (adjPname ops bpn bl) books > 0 then
          firstMaxId (adjPname ops bpn bl) books (bestScore (adjPname ops bpn bl) books)
        else 0 := by
    have h2 := congrArg Prod.snd hN
    rw [pairFold_snd] at h2
    exact h2
  rw [hR1, hR2, hP1, hP2, hN1, hN2]
  simp only [specBestId]

theorem cascade_eq_empty (ops : FuzzOps) (books : List DBBook) (bl : String) :
    (if (books.foldl (fuzzStep ops bl "") {}).best_ratio > 90 then
        (books.foldl (fuzzStep ops bl "") {}).ratio_id
      else if (books.foldl (fuzzStep ops bl "") {}).best_prat > 85 then
        (books.foldl (fuzzStep ops bl "") {}).prat_id
      else if (books.foldl (fuzzStep ops bl "") {}).best_pname > 95 then
        (books.foldl (fuzzStep ops bl "") {}).pname_id
      else 0)
    = (if bestScore (adjRatio ops bl) books > 90 then specBestId (adjRatio ops bl) books
      else if bestScore (adjPrat ops bl) books > 85 then specBestId (adjPrat ops bl) books
      else 0) := by
  have hR := fuzzFold_ratio ops bl "" books {}
  have hP := fuzzFold_prat ops bl "" books {}
  have hN := fuzzFold_pname_empty ops bl books {} (by exact le_refl 0) (by exact le_refl 0)
  have hR1 : (books.foldl (fuzzStep ops bl "") {}).best_ratio
      = bestScore (adjRatio ops bl) books := by
    have h1 := congrArg Prod.fst hR
    rw [pairFold_fst] at h1
    exact h1
  have hR2 : (books.foldl (fuzzStep ops bl "") {}).ratio_id
      = if bestScore (adjRatio ops bl) books > 0 then
          firstMaxId (adjRatio ops bl) books (bestScore (adjRatio ops bl) books) else 0 := by
    have h2 := congrArg Prod.snd hR
    rw [pairFold_snd] at h2
    exact h2
  have hP1 : (books.foldl (fuzzStep ops bl "") {}).best_prat
      = bestScore (adjPrat ops bl) books := by
    have h1 := congrArg Prod.fst hP
    rw [pairFold_fst] at h1
    exact h1
  have hP2 : (books.foldl (fuzzStep ops bl "") {}).prat_id
      = if bestScore (adjPrat ops bl) books > 0 then
          firstMaxId (adjPrat ops bl) books (bestScore (adjPrat ops bl) books) else 0 := by
    have h2 := congrArg Prod.snd hP
    rw [pairFold_snd] at h2
    exact h2
  have hN1 : (books.foldl (fuzzStep ops bl "") {}).best_pname = 0 := hN.1
  rw [hR1, hR2, hP1, hP2, hN1]
  simp only [specBestId]
  split_ifs <;> first | rfl | omega

theorem fuzzy_find_spec (ops : FuzzOps) (books : List DBBook) (author book : String)
    (hcore : ops.split_title author (ops.unaccented (pyLower book)) ≠ "") :
    fuzzy_find ops books author book = fuzzySpecC1 ops books author book := by
  by_cases heq : ops.split_title author (ops.unaccented (pyLower book))
      = ops.unaccented (pyLower book)
  · have heqb : (ops.split_title author (ops.unaccented (pyLower book))
        == ops.unaccented (pyLower book)) = true := beq_iff_eq.mpr heq
    have hL : fuzzy_find ops books author book =
        (if (books.foldl (fuzzStep ops (ops.unaccented (pyLower book)) "") {}).best_ratio > 90 then
            (books.foldl (fuzzStep ops (ops.unaccented (pyLower book)) "") {}).ratio_id
          else if (books.foldl (fuzzStep ops (ops.unaccented (pyLower book)) "") {}).best_prat > 85 then
            (books.foldl (fuzzStep ops (ops.unaccented (pyLower book)) "") {}).prat_id
          else if (books.foldl (fuzzStep ops (ops.unaccented (pyLower book)) "") {}).best_pname > 95 then
            (books.foldl (fuzzStep ops (ops.unaccented (pyLower book)) "") {}).pname_id
          else 0) := by
      simp only [fuzzy_find, heqb, if_true]
    have hR : fuzzySpecC1 ops books author book =
        (if bestScore (adjRatio ops (ops.unaccented (pyLower book))) books > 90 then
            specBestId (adjRatio ops (ops.unaccented (pyLower book))) books
          else if bestScore (adjPrat ops (ops.unaccented (pyLower book))) books > 85 then
            specBestId (adjPrat ops (ops.unaccented (pyLower book))) books
          else 0) := by
      simp only [fuzzySpecC1]
      split_ifs with hA hB hC
      · rfl
      · rfl
      · exact absurd heq hC.1
      · rfl
    rw [hL, hR]
    exact cascade_eq_empty ops books (ops.unaccented (pyLower book))
  · have heqb : (ops.split_title author (ops.unaccented (pyLower book))
        == ops.unaccented (pyLower book)) = false := beq_eq_false_iff_ne.mpr heq
    have hbp : (ops.split_title author (ops.unaccented (pyLower book)) == "") = false :=
      beq_eq_false_iff_ne.mpr hcore
    have hL : fuzzy_find ops books author book =
        (if (books.foldl (fuzzStep ops (ops.unaccented (pyLower book))
              (ops.split_title author (ops.unaccented (pyLower book)))) {}).best_ratio > 90 then
            (books.foldl (fuzzStep ops (ops.unaccented (pyLower book))
              (ops.split_title author (ops.unaccented (pyLower book)))) {}).ratio_id
          else if (books.foldl (fuzzStep ops (ops.unaccented (pyLower book))
              (ops.split_title author (ops.unaccented (pyLower book)))) {}).best_prat > 85 then
            (books.foldl (fuzzStep ops (ops.unaccented (pyLower book))
              (ops.split_title author (ops.unaccented (pyLower book)))) {}).prat_id
          else if (books.foldl (fuzzStep ops (ops.unaccented (pyLower book))
              (ops.split_title author (ops.unaccented (pyLower book)))) {}).best_pname > 95 then
            (books.foldl (fuzzStep ops (ops.unaccented (pyLower book))
              (ops.split_title author (ops.unaccented (pyLower book)))) {}).pname_id
          else 0) := by
      simp only [fuzzy_find, heqb, Bool.false_eq_true, if_false]
    have hR : fuzzySpecC1 ops books author book =
        (if bestScore (adjRatio ops (ops.unaccented (pyLower book))) books > 90 then
            specBestId (adjRatio ops (ops.unaccented (pyLower book))) books
          else if bestScore (adjPrat ops (ops.unaccented (pyLower book))) books > 85 then
            specBestId (adjPrat ops (ops.unaccented (pyLower book))) books
          else if bestScore (adjPname ops
              (ops.split_title author (ops.unaccented (pyLower book)))
              (ops.unaccented (pyLower book))) books > 95 then
            specBestId (adjPname ops
              (ops.split_title author (ops.unaccented (pyLower book)))
              (ops.unaccented (pyLower book))) books
          else 0) := by
      simp only [fuzzySpecC1, ne_eq, heq, not_false_eq_true, true_and]
    rw [hL, hR]
    exact cascade_eq ops books (ops.unaccented (pyLower book))
      (ops.split_title author (ops.unaccented (pyLower book))) hbp

/-- C1: on an exact-match miss, the approximate-match step of
`find_book_in_db` computes per candidate (the catalog rows by the same
author) a token-sort ratio, a partial ratio and — when the reduced core
title differs from the full title — a partial ratio against the reduced
core title, subtracts from each score the absolute word-count difference
between the query and candidate titles, keeps three independent
per-metric running maxima, and returns the ratio-best id if its adjusted
score exceeds 90, else the partial-best if over 85, else the
partname-best if over 95, else 0 (NotFound).  `fuzzySpecC1` is that
specification verbatim; the hypothesis `hcore` excludes the degenerate
empty core title, for which the code skips the partname metric. -/
theorem C1_find_book_in_db_approx (ops : FuzzOps) (catalog : List DBBook)
    (author book : String)
    (hmiss : catalog.find? (fun r => nocaseEq r.authorName (sqlQuote author)
        && nocaseEq r.bookName (sqlQuote book)) = none)
    (hcore : ops.split_title author (ops.unaccented (pyLower book)) ≠ "") :
    find_book_in_db ops catalog author book
      = fuzzySpecC1 ops
          (catalog.filter (fun r => nocaseEq r.authorName (sqlQuote author))) author book := by
  simp only [find_book_in_db, hmiss]
  exact fuzzy_find_spec ops _ author book hcore

/-- Witness for C1 at a concrete catalog and query. -/
theorem C1_find_book_in_db_approx_witness :
    find_book_in_db opsC1 [⟨5, "Alpha", "bob"⟩] "bob" "Beta"
      = fuzzySpecC1 opsC1
          (List.filter (fun r => nocaseEq r.authorName (sqlQuote "bob"))
            [⟨5, "Alpha", "bob"⟩]) "bob" "Beta" :=
  C1_find_book_in_db_approx opsC1 [⟨5, "Alpha", "bob"⟩] "bob" "Beta"
    (by decide) (by decide)

theorem pyReplaceAux_not_mem (fuel : Nat) (l : List Char) (c : Char) (rep : List Char)
    (hfuel : l.length ≤ fuel) (hmem : c ∉ l) :
    pyReplaceAux fuel l [c] rep = l := by
  induction fuel generalizing l with
  | zero =>
    cases l with
    | nil => rfl
    | cons x xs => simp at hfuel
  | succ n ih =>
    cases l with
    | nil => rfl
    | cons x xs =>
      have hne : c ≠ x := fun h => hmem (h ▸ List.mem_cons_self x xs)
      have hpre : ([c].isPrefixOf (x :: xs)) = false := by
        simp [List.isPrefixOf, hne]
      simp only [pyReplaceAux, hpre, Bool.false_eq_true, if_false]
      rw [ih xs (by simpa using Nat.le_of_succ_le_succ (by simpa using hfuel))
        (fun h => hmem (List.mem_cons_of_mem x h))]

theorem sqlQuote_id (s : String) (h : '"' ∉ s.data) : sqlQuote s = s := by
  cases s with
  | mk data =>
    simp only [sqlQuote, pyReplace]
    rw [if_neg (by simp)]
    exact congrArg String.mk (pyReplaceAux_not_mem _ _ _ _ (le_refl _) h)

/-- C2 counterexample: the catalog holds the entry
(author=`Jane "Doe"`, title=`Foo`, id=1) and the query is the identical
pair, yet `find_book_in_db` returns 0 (NotFound) instead of 1: the code
doubles every double quote in the bound query parameters
(`author.replace('"','""')`), so the exact-match (and even the fuzzy
candidate) lookup misses names containing a double quote. -/
theorem C2_counterexample :
    nocaseEq "Jane \"Doe\"" "Jane \"Doe\"" = true ∧
    nocaseEq "Foo" "Foo" = true ∧
    find_book_in_db trivOps [⟨1, "Foo", "Jane \"Doe\""⟩] "Jane \"Doe\"" "Foo" = 0 ∧
    (1 : Nat) ≠ 0 := by
  decide

/-- C2 amended: if the query author and title contain no double-quote
character, then whenever the catalog holds an entry whose author and book
name equal the query pair up to (ASCII) case, `find_book_in_db` returns
the first such entry's id — for every choice of the fuzzy metrics, i.e.
without consulting them. -/
theorem C2_exact_match (ops : FuzzOps) (catalog : List DBBook)
    (author book : String) (e : DBBook)
    (hqa : '"' ∉ author.data) (hqb : '"' ∉ book.data)
    (hfind : catalog.find? (fun r => nocaseEq r.authorName author
        && nocaseEq r.bookName book) = some e) :
    find_book_in_db ops catalog author book = e.bookID := by
  have ha : sqlQuote author = author := sqlQuote_id _ hqa
  have hb : sqlQuote book = book := sqlQuote_id _ hqb
  simp only [find_book_in_db, ha, hb, hfind]

/-- Witness for C2: a catalog hit found case-insensitively. -/
theorem C2_exact_match_witness :
    find_book_in_db trivOps [⟨9, "The Hobbit", "J R R Tolkien"⟩]
      "j r r tolkien" "THE HOBBIT" = 9 :=
  C2_exact_match trivOps [⟨9, "The Hobbit", "J R R Tolkien"⟩]
    "j r r tolkien" "THE HOBBIT" ⟨9, "The Hobbit", "J R R Tolkien"⟩
    (by decide) (by decide) (by decide)

theorem lookup_none_not_mem (cache : List (String × String)) (p : String)
    (h : cache.lookup p = none) : p ∉ cache.map Prod.fst := by
  induction cache with
  | nil => simp
  | cons kv t ih =>
    obtain ⟨k, v⟩ := kv
    simp only [List.lookup] at h
    by_cases hk : p == k
    · rw [hk] at h
      simp at h
    · simp only [Bool.not_eq_true] at hk
      rw [hk] at h
      simp only [List.map_cons, List.mem_cons]
      rintro (hpk | hmem)
      · exact absurd (beq_iff_eq.mpr hpk) (by simp [hk])
      · exact ih h hmem

theorem lookup_append_none (l1 l2 : List (String × String)) (p : String)
    (h : l1.lookup p = none) : (l1 ++ l2).lookup p = l2.lookup p := by
  induction l1 with
  | nil => rfl
  | cons kv t ih =>
    obtain ⟨k, v⟩ := kv
    simp only [List.lookup] at h ⊢
    by_cases hk : p == k
    · rw [hk] at h
      simp at h
    · simp only [Bool.not_eq_true] at hk
      rw [hk] at h ⊢
      exact ih h

/-- C3: invariant of the language cache across scan writes — the
write step keeps at most one row per prefix (key Nodup is preserved), a
second write for an already-cached prefix is a no-op whatever language it
carries (first writer wins, never overwritten), and the key really is a
3-character prefix for valid ISBN lengths. -/
theorem C3_language_cache_invariant (cache : List (String × String)) (p l l2 : String) :
    ((cache.map Prod.fst).Nodup → ((langCacheAdd cache p l).map Prod.fst).Nodup) ∧
    langCacheAdd (langCacheAdd cache p l) p l2 = langCacheAdd cache p l ∧
    (∀ isbn : String, isbn.data.length = 10 ∨ isbn.data.length = 13 →
      (isbnHead isbn).data.length = 3) := by
  refine ⟨?_, ?_, ?_⟩
  · intro hnd
    unfold langCacheAdd
    cases h : cache.lookup p with
    | some v => exact hnd
    | none =>
      have hnm := lookup_none_not_mem cache p h
      simp only [List.map_append, List.map_cons, List.map_nil]
      rw [List.nodup_append]
      refine ⟨hnd, List.nodup_singleton p, ?_⟩
      intro x hx hxp
      simp only [List.mem_singleton] at hxp
      exact hnm (hxp ▸ hx)
  · unfold langCacheAdd
    cases h : cache.lookup p with
    | some v => simp [h]
    | none =>
      have : (cache ++ [(p, l)]).lookup p = some l := by
        rw [lookup_append_none cache [(p, l)] p h]
        simp [List.lookup]
      simp [this]
  · intro isbn hlen
    unfold isbnHead
    rcases hlen with h10 | h13
    · rw [if_pos (by simpa using h10)]
      simp [h10]
    · rw [if_neg (by simp [h13])]
      simp [h13]

/-- Witness for C3 at concrete caches and prefixes. -/
theorem C3_language_cache_invariant_witness :
    (((langCacheAdd [("902", "en")] "902" "fr").map Prod.fst).Nodup) ∧
    langCacheAdd (langCacheAdd [] "902" "en") "902" "fr" = langCacheAdd [] "902" "en" ∧
    (isbnHead "9780306406157").data.length = 3 :=
  ⟨(C3_language_cache_invariant [("902", "en")] "902" "fr" "x").1 (by decide),
    (C3_language_cache_invariant [] "902" "en" "fr").2.1,
    (C3_language_cache_invariant [] "902" "en" "fr").2.2 "9780306406157" (by decide)⟩

theorem setStatus_aidStatus (db : List AuthorRow) (aid : Nat) (s : String) :
    aidStatus (setStatusIfExists db aid s) aid s := by
  unfold setStatusIfExists
  cases h : lookupAuthor db aid with
  | none =>
    intro r hr hraid
    exfalso
    rw [lookupAuthor, List.find?_eq_none] at h
    exact h r hr (by simpa using hraid)
  | some r0 =>
    intro r hr hraid
    rw [List.mem_map] at hr
    obtain ⟨x, hx, hgx⟩ := hr
    by_cases hxa : x.authorID = aid
    · rw [if_pos (by simpa using hxa)] at hgx
      rw [← hgx]
    · rw [if_neg (by simpa using hxa)] at hgx
      exact absurd (hgx ▸ hraid) hxa

theorem updateTotals_aidStatus (db : List AuthorRow) (aid : Nat) (s : String)
    (f : Nat → Nat) (h : aidStatus db aid s) :
    aidStatus (updateTotals f db) aid s := by
  intro r hr hraid
  rw [updateTotals, List.mem_map] at hr
  obtain ⟨x, hx, hgx⟩ := hr
  have hxa : x.authorID = aid := by rw [← hgx] at hraid; exact hraid
  have := h x hx hxa
  rw [← hgx]
  exact this

/-- C4: a partial (single-author) `LibraryScan` of an existing author
sets the status to Loading first and back to Active by the time it
returns — both when the body completes normally and when it raises an
exception mid-scan (`body` covers every possible behaviour of either
kind); whatever row is found for the author afterwards shows Active, so
the author is never left at Loading. -/
theorem C4_author_status_reset
    (body : List AuthorRow → Except (List AuthorRow) (List AuthorRow))
    (f : Nat → Nat) (aid : Nat) (db : List AuthorRow)
    (_hexists : (lookupAuthor db aid).isSome) (r : AuthorRow)
    (hfind : lookupAuthor (libraryScanAuthorFlow body f aid db) aid = some r) :
    r.status = "Active" := by
  have hmem := List.mem_of_find?_eq_some hfind
  have hpred := List.find?_some hfind
  have hraid : r.authorID = aid := by simpa using hpred
  simp only [libraryScanAuthorFlow] at hmem
  cases hb : body (setStatusIfExists db aid "Loading") with
  | ok db2 =>
    rw [hb] at hmem
    exact updateTotals_aidStatus _ aid _ f (setStatus_aidStatus db2 aid "Active") r hmem hraid
  | error db2 =>
    rw [hb] at hmem
    exact setStatus_aidStatus db2 aid "Active" r hmem hraid

/-- Witness for C4: one crashing body and one normal body over a
one-author table. -/
theorem C4_author_status_reset_witness :
    AuthorRow.status ⟨3, "Active", 0⟩ = "Active" ∧
    AuthorRow.status ⟨3, "Active", 5⟩ = "Active" :=
  ⟨C4_author_status_reset (fun d => Except.error d) id 3 [⟨3, "Idle", 0⟩]
      (by decide) ⟨3, "Active", 0⟩ (by decide),
    C4_author_status_reset (fun d => Except.ok d) (fun _ => 5) 3 [⟨3, "Idle", 0⟩]
      (by decide) ⟨3, "Active", 5⟩ (by decide)⟩

/-- C5 counterexample: with removal enabled (the default
`LibraryScan(..., remove=True)`), a partial scan rooted at `/lib/sub`
does mark the missing book recorded at `/lib/sub/x.epub` and clears its
path — the claim that a partial scan leaves all such entries unchanged is
false; partial scans only spare entries outside the scanned subtree. -/
theorem C5_counterexample :
    removalPassEBook (fun _ => false) true false "/lib/sub" "Wanted"
      [⟨1, "Open", "/lib/sub/x.epub", some "ts"⟩]
      = [⟨1, "Wanted", "", some ""⟩] ∧
    (⟨1, "Wanted", "", some ""⟩ : BookFileRow)
      ≠ ⟨1, "Open", "/lib/sub/x.epub", some "ts"⟩ := by
  decide

/-- C5 amended: with removal enabled, a scan marks as not-found (and
clears the path of) exactly the catalog entries whose file is missing on
disk and — when the scan is partial — whose recorded path lies under the
scanned subtree; a partial scan leaves entries outside its subtree
unchanged, and with removal disabled nothing is touched. -/
theorem C5_removal_scope (onDisk : String → Bool) (fullScan : Bool)
    (sd nf : String) (b : BookFileRow) :
    (b.bookLibrary.isSome = true → (b.bookFile == "") = false →
      onDisk b.bookFile = false →
      (fullScan || likeStartsWith sd b.bookFile) = true →
      removalPassEBook onDisk true fullScan sd nf [b]
        = [{ b with status := nf, bookFile := "", bookLibrary := some "" }]) ∧
    (likeStartsWith sd b.bookFile = false →
      removalPassEBook onDisk true false sd nf [b] = [b]) ∧
    removalPassEBook onDisk false fullScan sd nf [b] = [b] := by
  refine ⟨?_, ?_, ?_⟩
  · intro h1 h2 h3 h4
    have hc : ((b.bookLibrary.isSome && (fullScan || likeStartsWith sd b.bookFile))
        && (!(b.bookFile == "") && !(onDisk b.bookFile))) = true := by
      rw [h1, h2, h3, h4]
      rfl
    unfold removalPassEBook
    rw [if_pos rfl]
    simp only [List.map_cons, List.map_nil]
    rw [if_pos hc]
  · intro h
    have hc : ¬ (((b.bookLibrary.isSome && (false || likeStartsWith sd b.bookFile))
        && (!(b.bookFile == "") && !(onDisk b.bookFile))) = true) := by
      rw [h]
      simp
    unfold removalPassEBook
    rw [if_pos rfl]
    simp only [List.map_cons, List.map_nil]
    rw [if_neg hc]
  · unfold removalPassEBook
    rw [if_neg Bool.false_ne_true]

/-- Witness for C5: a full scan marks a missing book; a partial scan
spares a book outside its subtree; removal off touches nothing. -/
theorem C5_removal_scope_witness :
    removalPassEBook (fun _ => false) true true "/lib" "Wanted"
      [⟨1, "Open", "/lib/a/x.epub", some "ts"⟩]
      = [⟨1, "Wanted", "", some ""⟩] ∧
    removalPassEBook (fun _ => false) true false "/lib/sub" "Wanted"
      [⟨2, "Open", "/other/y.epub", some "ts"⟩]
      = [⟨2, "Open", "/other/y.epub", some "ts"⟩] ∧
    removalPassEBook (fun _ => false) false false "/lib" "Wanted"
      [⟨3, "Open", "/lib/z.epub", some "ts"⟩]
      = [⟨3, "Open", "/lib/z.epub", some "ts"⟩] :=
  ⟨(C5_removal_scope (fun _ => false) true "/lib" "Wanted"
      ⟨1, "Open", "/lib/a/x.epub", some "ts"⟩).1
      (by decide) (by decide) (by decide) (by decide),
    (C5_removal_scope (fun _ => false) false "/lib/sub" "Wanted"
      ⟨2, "Open", "/other/y.epub", some "ts"⟩).2.1 (by decide),
    (C5_removal_scope (fun _ => false) false "/lib" "Wanted"
      ⟨3, "Open", "/lib/z.epub", some "ts"⟩).2.2⟩

/-- C6 counterexample: `book.azw3` has extension `.azw3`, one of the
three named by the claim, yet the scan's step 1 never runs the container
reader on it — the gate at librarysync.py 452 tests only `.epub` and
`.mobi`. -/
theorem C6_counterexample :
    (splitext "book.azw3").2 = ".azw3" ∧
    resolverStep1 (fun _ => [("title", "T")]) "book.azw3" = none := by
  decide

/-- C6 amended: step 1 of the cascade runs the container reader exactly
for the extensions `.epub` and `.mobi`; `.azw3` files are skipped by the
scan even though `get_book_info` itself routes `.azw3` to its Mobi
parser. -/
theorem C6_step1_extensions (reader : String → List (String × String)) (files : String) :
    ((resolverStep1 reader files).isSome = true
      ↔ ((splitext files).2 = ".epub" ∨ (splitext files).2 = ".mobi"))
    ∧ getBookInfoBranch ".azw3" = BookInfoBranch.mobi := by
  refine ⟨?_, rfl⟩
  unfold resolverStep1
  by_cases h : ((splitext files).2 == ".epub" || (splitext files).2 == ".mobi") = true
  · rw [if_pos h]
    simp only [Option.isSome_some, true_iff]
    simp only [Bool.or_eq_true, beq_iff_eq] at h
    exact h
  · rw [if_neg h]
    simp only [Option.isSome_none, Bool.false_eq_true, false_iff]
    intro hc
    apply h
    simp only [Bool.or_eq_true, beq_iff_eq]
    exact hc

theorem findSome?_eq_some_exists {α β : Type} (l : List α) (f : α → Option β) (b : β)
    (h : l.findSome? f = some b) : ∃ a ∈ l, f a = some b := by
  induction l with
  | nil => simp [List.findSome?] at h
  | cons x xs ih =>
    rw [List.findSome?_cons] at h
    cases hf : f x with
    | some v =>
      rw [hf] at h
      exact ⟨x, List.mem_cons_self x xs, by rw [hf]; exact h⟩
    | none =>
      rw [hf] at h
      obtain ⟨a, ha, hfa⟩ := ih h
      exact ⟨a, List.mem_cons_of_mem x ha, hfa⟩

/-- Any pattern whose token list ends with `\.` followed by a character
class only matches strings containing a dot followed by a single class
character at the matched position. -/
theorem tokMatch_tail (cs : List Char) (init : List Tok) :
    ∀ (fname : List Char) (caps : Caps),
      tokMatch (init ++ [Tok.lit '.', Tok.cls cs]) fname = some caps →
      ∃ p c r, fname = p ++ '.' :: c :: r ∧ cs.contains c = true := by
  induction init with
  | nil =>
    intro fname caps h
    simp only [List.nil_append] at h
    match fname with
    | [] => simp [tokMatch] at h
    | x :: xs =>
      rw [tokMatch] at h
      by_cases hx : (x == '.') = true
      · rw [if_pos hx] at h
        match xs with
        | [] => simp [tokMatch] at h
        | y :: ys =>
          rw [tokMatch] at h
          by_cases hy : cs.contains y = true
          · exact ⟨[], y, ys, by simp [beq_iff_eq.mp hx], hy⟩
          · rw [if_neg hy] at h
            simp at h
      · rw [if_neg hx] at h
        simp at h
  | cons t ts ih =>
    intro fname caps h
    cases t with
    | lit c =>
      match fname with
      | [] => simp [tokMatch] at h
      | x :: xs =>
        rw [List.cons_append, tokMatch] at h
        by_cases hx : (x == c) = true
        · rw [if_pos hx] at h
          obtain ⟨p, c2, r, heq, hc⟩ := ih xs caps h
          exact ⟨x :: p, c2, r, by rw [heq, List.cons_append], hc⟩
        · rw [if_neg hx] at h
          simp at h
    | cls cs2 =>
      match fname with
      | [] => simp [tokMatch] at h
      | x :: xs =>
        rw [List.cons_append, tokMatch] at h
        by_cases hx : cs2.contains x = true
        · rw [if_pos hx] at h
          obtain ⟨p, c2, r, heq, hc⟩ := ih xs caps h
          exact ⟨x :: p, c2, r, by rw [heq, List.cons_append], hc⟩
        · rw [if_neg hx] at h
          simp at h
    | grpAuthor =>
      rw [List.cons_append, tokMatch] at h
      obtain ⟨n, _, hn⟩ := findSome?_eq_some_exists _ _ _ h
      rw [Option.map_eq_some'] at hn
      obtain ⟨caps2, hm, _⟩ := hn
      obtain ⟨p, c2, r, heq, hc⟩ := ih (fname.drop n) caps2 hm
      have hsplit : fname = List.take n fname ++ List.drop n fname :=
        (List.take_append_drop n fname).symm
      rw [heq] at hsplit
      refine ⟨fname.take n ++ p, c2, r, ?_, hc⟩
      conv_lhs => rw [hsplit]
      rw [List.append_assoc]
    | grpBook =>
      rw [List.cons_append, tokMatch] at h
      obtain ⟨n, _, hn⟩ := findSome?_eq_some_exists _ _ _ h
      rw [Option.map_eq_some'] at hn
      obtain ⟨caps2, hm, _⟩ := hn
      obtain ⟨p, c2, r, heq, hc⟩ := ih (fname.drop n) caps2 hm
      have hsplit : fname = List.take n fname ++ List.drop n fname :=
        (List.take_append_drop n fname).symm
      rw [heq] at hsplit
      refine ⟨fname.take n ++ p, c2, r, ?_, hc⟩
      conv_lhs => rw [hsplit]
      rw [List.append_assoc]

/-- C7: the filename pattern matcher yields NoMatch whenever the regex
match itself succeeds but either captured group is empty, or either
captured string has length at most 2 (librarysync.py 527-538). -/
theorem C7_short_captures (toks : List Tok) (files : List Char) (caps : Caps)
    (a b : List Char)
    (hm : tokMatch toks files = some caps)
    (ha : caps.author = some a) (hb : caps.book = some b)
    (hshort : a = [] ∨ b = [] ∨ a.length ≤ 2 ∨ b.length ≤ 2) :
    patternMatchStep toks files = none := by
  unfold patternMatchStep
  rw [hm]
  dsimp only
  rw [ha, hb]
  dsimp only
  split_ifs with h1 h2
  · rfl
  · rfl
  · exfalso
    rcases hshort with h | h | h | h
    · exact h1 (by simp [h])
    · exact h1 (by simp [h])
    · exact h2 (Or.inr h)
    · exact h2 (Or.inl h)

/-- Witness for C7: `Jo - Xy.e` matches the compiled pattern with both
captures of length 2 and is rejected. -/
theorem C7_short_captures_witness :
    patternMatchStep toksC7 "Jo - Xy.e".data = none :=
  C7_short_captures toksC7 "Jo - Xy.e".data
    ⟨some "Jo".data, some "Xy".data⟩ "Jo".data "Xy".data
    (by decide) (by decide) (by decide) (by decide)

/-- C8 counterexample: the compiled pattern's bracketed tail
`\.[epub|mobi]` is a character class, not an alternation — the filename
`Jane - Emma.b` is accepted by the full pattern-match step although it
ends with no configured extension (it ends in `.b`, a single class
character). -/
theorem C8_counterexample :
    parseToks (buildMatchString "$Author - $Title" ["epub", "mobi"]) = some toksC8 ∧
    patternMatchStep toksC8 "Jane - Emma.b".data
      = some ("Jane".data, "Emma".data) ∧
    (["epub", "mobi"].any
      (fun bt => ('.' :: bt.data).isSuffixOf "Jane - Emma.b".data)) = false := by
  decide

/-- C8 amended: the compiled pattern ends with `\.[` ++ (extensions
joined by `|`) ++ `]` — a character class over the individual characters
of the configured extensions plus the separator — so a matching filename
is only guaranteed to contain a dot followed by one character from that
class at the matched position, not to end with a whole configured
extension. -/
theorem C8_pattern_tail (template : String) (bts : List String) :
    (∃ body, buildMatchString template bts
        = body ++ ('\\' :: '.' :: '[' :: joinTypes bts) ++ [']']) ∧
    (∀ (init : List Tok) (fname : List Char) (caps : Caps),
      tokMatch (init ++ [Tok.lit '.', Tok.cls (joinTypes bts)]) fname = some caps →
      ∃ p c r, fname = p ++ '.' :: c :: r ∧ (joinTypes bts).contains c = true) := by
  constructor
  · exact ⟨pyReplace (pyReplace (escapeAll template.data) (escapeAll "$Author".data)
      "(?P<author>.*?)".data) (escapeAll "$Title".data) "(?P<book>.*?)".data, rfl⟩
  · intro init fname caps h
    exact tokMatch_tail (joinTypes bts) init fname caps h

/-- Witness for C8: the tail shape of a concretely compiled pattern, and
the dot-plus-class-character consequence on a concrete accepted
filename. -/
theorem C8_pattern_tail_witness :
    (∃ body, buildMatchString "$Author - $Title" ["epub", "mobi"]
        = body ++ ('\\' :: '.' :: '[' :: joinTypes ["epub", "mobi"]) ++ [']']) ∧
    (∃ p c r, ("Jane - Emma.b".data : List Char) = p ++ '.' :: c :: r ∧
      (joinTypes ["epub", "mobi"]).contains c = true) :=
  ⟨(C8_pattern_tail "$Author - $Title" ["epub", "mobi"]).1,
    (C8_pattern_tail "$Author - $Title" ["epub", "mobi"]).2
      [Tok.grpAuthor, Tok.lit ' ', Tok.lit '-', Tok.lit ' ', Tok.grpBook]
      "Jane - Emma.b".data ⟨some "Jane".data, some "Emma".data⟩ (by decide)⟩

theorem findFullPath_eq_empty (l : List Xml)
    (h : ∀ c ∈ l, c.attrs.lookup "full-path" = none) : findFullPath l = "" := by
  induction l with
  | nil => rfl
  | cons c rest ih =>
    rw [findFullPath, h c (List.mem_cons_self c rest)]
    exact ih (fun x hx => h x (List.mem_cons_of_mem c hx))

/-- C9 counterexample: a well-formed container.xml with children but no
`full-path` attribute makes `get_book_info` raise — `zipdata.read("")`
at librarysync.py 116 is outside every `try` block, so the function does
not return an error/empty-metadata result; the KeyError escapes to the
caller (whose own `try` at 455-459 then skips the file). -/
theorem C9_counterexample :
    getBookInfoEpub (fun _ => some xmlC9) (fun _ => false)
      [("META-INF/container.xml", "xml")] = Except.error "" ∧
    scanEpubMeta (fun _ => some xmlC9) (fun _ => false)
      [("META-INF/container.xml", "xml")] = {} := by
  constructor
  · rfl
  · rfl

/-- C9 amended: whenever container.xml is present and parses with
children but no element below `tree[0]` carries a `full-path` attribute,
`get_book_info` raises a KeyError (reading the member `""`) instead of
returning; the scan-level wrapper catches it, logs, and treats the file
as having no embedded metadata, so the file is skipped without the
exception propagating further. -/
theorem C9_epub_missing_fullpath (parseXml : String → Option Xml)
    (validIsbn : Option String → Bool) (entries : List (String × String))
    (txt : String) (tree t0 : Xml) (rest : List Xml)
    (hzip : entries.lookup "META-INF/container.xml" = some txt)
    (hparse : parseXml txt = some tree)
    (hchild : tree.children = t0 :: rest)
    (hnofp : ∀ c ∈ t0.children, c.attrs.lookup "full-path" = none)
    (hempty : entries.lookup "" = none) :
    getBookInfoEpub parseXml validIsbn entries = Except.error "" ∧
    scanEpubMeta parseXml validIsbn entries = {} := by
  have hfp : findFullPath t0.children = "" := findFullPath_eq_empty _ hnofp
  have hmain : getBookInfoEpub parseXml validIsbn entries = Except.error "" := by
    unfold getBookInfoEpub zipRead
    rw [hzip]
    dsimp only
    rw [hparse]
    dsimp only
    rw [hchild]
    dsimp only
    rw [hfp, hempty]
  refine ⟨hmain, ?_⟩
  unfold scanEpubMeta
  rw [hmain]

/-- Witness for C9 at the concrete archive of the counterexample's
shape but with a second, distinct zip member. -/
theorem C9_epub_missing_fullpath_witness :
    getBookInfoEpub (fun _ => some xmlC9) (fun _ => true)
      [("META-INF/container.xml", "xml"), ("content.opf", "opf")] = Except.error "" ∧
    scanEpubMeta (fun _ => some xmlC9) (fun _ => true)
      [("META-INF/container.xml", "xml"), ("content.opf", "opf")] = {} :=
  C9_epub_missing_fullpath (fun _ => some xmlC9) (fun _ => true)
    [("META-INF/container.xml", "xml"), ("content.opf", "opf")]
    "xml" xmlC9 (Xml.elem "rootfiles" [] none
      [Xml.elem "rootfile" [("media-type", "application/oebps-package+xml")] none []]) []
    (by decide) rfl rfl
    (by intro c hc
        simp only [Xml.children, List.mem_singleton] at hc
        rw [hc]
        rfl)
    (by decide)

/-- C10: during an Audio scan a file in an already-processed
subdirectory is skipped unconditionally; during an eBook scan the same
skip applies exactly when `IMP_SINGLEBOOK` is configured — with the
option off, eBook files in already-processed subdirectories are still
processed. -/
theorem C10_subdir_skip (singlebook : Bool) (processed : List String) (sub : String) :
    skipSubdir "Audio" singlebook processed sub = processed.contains sub ∧
    skipSubdir "eBook" singlebook processed sub = (singlebook && processed.contains sub) := by
  constructor
  · unfold skipSubdir
    have h1 : (("Audio" == "eBook") = false) := by decide
    have h2 : (("Audio" == "Audio") = true) := by decide
    rw [h1, h2]
    cases h : processed.contains sub <;> cases singlebook <;> simp
  · unfold skipSubdir
    have h1 : (("eBook" == "eBook") = true) := by decide
    have h2 : (("eBook" == "Audio") = false) := by decide
    rw [h1, h2]
    cases h : processed.contains sub <;> cases singlebook <;> simp
